import Mathlib

/-!
Shallow embedding of the face-grid program (`src/main.rs`, `src/parsing.rs`).

Machine integers: Rust `u32` values are modelled as `ℕ` and `i32` values as
`ℤ`; the `as u32` / `as i32` casts that appear in the source are modelled
explicitly (`i32AsU32`, `u32AsI32`).  Arithmetic the source performs without
casts is modelled exactly (a Rust debug build aborts on overflow, so
in-range hypotheses appear in theorems instead of wrap-around).

The repository's `geom.rs` and `terminal.rs` modules are declared in
`main.rs` (`pub mod geom; pub mod terminal;`) but their files are not under
`src/`; the geometry helpers `intersect`, `fit_inside`, `xyf_to_xyi` are
modelled from the spec (§4.1) and carry a doc comment saying so.  The layout
arithmetic in `main.rs` is computed on `f32`; for the counts and cell sizes
in its domain of exactness (below `2^24`) those computations coincide with
exact integer and rational arithmetic, and are embedded as such.  The face
aligner's rational computations (face rectangles, scale, offsets) are
embedded over `ℚ`.
-/

/-- Rust `x as u32` applied to an `i32` value: wraps modulo `2^32`. -/
def i32AsU32 (x : ℤ) : ℕ := (x % 4294967296).toNat

/-- Rust `x as i32` applied to a `u32` value: values `≥ 2^31` wrap to
negatives. -/
def u32AsI32 (n : ℕ) : ℤ := if n < 2147483648 then (n : ℤ) else (n : ℤ) - 4294967296

lemma i32AsU32_eq_toNat (x : ℤ) (h0 : 0 ≤ x) (h2 : x < 4294967296) :
    i32AsU32 x = x.toNat := by
  unfold i32AsU32
  rw [Int.emod_eq_of_lt h0 h2]

lemma u32AsI32_eq_coe (n : ℕ) (h : n < 2147483648) : u32AsI32 n = (n : ℤ) := by
  unfold u32AsI32
  rw [if_pos h]

/-! ## Grid layout planner (`main.rs` lines 195–202) -/

/-- The four quantities `main` derives from the result count: `num_cols`,
`num_rows`, `output_width`, `output_height`. -/
structure GridLayout where
  num_cols : ℕ
  num_rows : ℕ
  output_width : ℕ
  output_height : ℕ

/-- `ceil(sqrt(count))` on naturals.  This is the value the source's
`(results.len() as f32).sqrt().ceil() as u32` computes only for counts
below `2^24`: there the `usize → f32` conversion is lossless, the correctly
rounded `sqrt` of a non-square `n` stays strictly between the neighbouring
integers (its distance to the integer below exceeds half an ulp whenever
`sqrt n < 2^12`), and `ceil` recovers the exact ceiling.  At `count =
2^24 + 1` the two diverge (the `f32` chain gives `4096`, this gives
`4097`), so the layout theorem hypothesizes `count < 2^24` and the
original unbounded claim is refuted separately. -/
def ceilSqrt (n : ℕ) : ℕ :=
  if Nat.sqrt n * Nat.sqrt n = n then Nat.sqrt n else Nat.sqrt n + 1

/-- Grid layout arithmetic of `main` (`main.rs` 195–202).  The source
computes `num_rows` as `(len as f32 / num_cols as f32).ceil() as u32`;
for `num_cols = 0` (reachable only with `len = 0`) that is `NaN as u32`,
which saturates to `0` in Rust, and for `len, num_cols < 2^24` the
correctly rounded `f32` quotient has the exact ceiling embedded here
(the quotient of integers below `2^24` can never round across an integer
boundary).  The canvas dimensions are `u32` products, which wrap modulo
`2^32` in a release build (a debug build panics on overflow instead; the
layout theorem hypothesizes in-range products, where the two profiles
agree, and the wrap is exercised by the overflow counterexample). -/
def planGrid (count columns cell_width cell_height : ℕ) : GridLayout :=
  let num_cols := if columns = 0 then ceilSqrt count else columns
  let num_rows := if num_cols = 0 then 0 else (count + num_cols - 1) / num_cols
  { num_cols := num_cols
    num_rows := num_rows
    output_width := num_cols * cell_width % 4294967296
    output_height := num_rows * cell_height % 4294967296 }

lemma ceilSqrt_sq_ge (n : ℕ) : n ≤ ceilSqrt n * ceilSqrt n := by
  unfold ceilSqrt
  split_ifs with h
  · rw [h]
  · have h2 := Nat.lt_succ_sqrt n
    have h3 : Nat.sqrt n + 1 = Nat.succ (Nat.sqrt n) := rfl
    rw [h3]
    exact h2.le

lemma ceilSqrt_le_of_le_sq (n c : ℕ) (h : n ≤ c * c) : ceilSqrt n ≤ c := by
  unfold ceilSqrt
  split_ifs with he
  · by_contra hlt
    push_neg at hlt
    have h1 : c + 1 ≤ Nat.sqrt n := hlt
    have h2 : (c + 1) * (c + 1) ≤ Nat.sqrt n * Nat.sqrt n := Nat.mul_le_mul h1 h1
    have h3 : Nat.sqrt n * Nat.sqrt n ≤ n := by
      have h5 := Nat.sqrt_le' n
      rwa [pow_two] at h5
    have h4 : c * c < (c + 1) * (c + 1) := by nlinarith
    linarith
  · by_contra hlt
    push_neg at hlt
    have h1 : c ≤ Nat.sqrt n := by omega
    have h2 : c * c ≤ Nat.sqrt n * Nat.sqrt n := Nat.mul_le_mul h1 h1
    have h3 : Nat.sqrt n * Nat.sqrt n ≤ n := by
      have h5 := Nat.sqrt_le' n
      rwa [pow_two] at h5
    exact he (le_antisymm h3 (le_trans h h2))

lemma lt_ceilSqrt (n c : ℕ) (h : c * c < n) : c < ceilSqrt n := by
  by_contra h0
  push_neg at h0
  have h1 : ceilSqrt n * ceilSqrt n ≤ c * c := Nat.mul_le_mul h0 h0
  have h2 := ceilSqrt_sq_ge n
  omega

lemma ceilSqrt_ten : ceilSqrt 10 = 4 :=
  le_antisymm (ceilSqrt_le_of_le_sq 10 4 (by norm_num)) (lt_ceilSqrt 10 3 (by norm_num))

lemma ceilSqrt_nine : ceilSqrt 9 = 3 :=
  le_antisymm (ceilSqrt_le_of_le_sq 9 3 (by norm_num)) (lt_ceilSqrt 9 2 (by norm_num))

lemma ceilSqrt_pos (n : ℕ) (hn : 0 < n) : 0 < ceilSqrt n := by
  have h := ceilSqrt_sq_ge n
  by_contra h0
  push_neg at h0
  have h1 : ceilSqrt n = 0 := by omega
  rw [h1] at h
  omega

lemma ceil_div_lower (n c : ℕ) (hn : 0 < n) (hc : 0 < c) :
    n ≤ ((n + c - 1) / c) * c := by
  have h0 : n + c - 1 = (n - 1) + c := by omega
  rw [h0, Nat.add_div_right _ hc, Nat.add_mul, one_mul]
  have h1 := Nat.div_add_mod (n - 1) c
  have h2 : (n - 1) % c < c := Nat.mod_lt _ hc
  rw [mul_comm ((n - 1) / c) c]
  obtain ⟨t, ht⟩ : ∃ t, c * ((n - 1) / c) = t := ⟨_, rfl⟩
  rw [ht] at h1 ⊢
  omega

lemma ceil_div_upper (n c : ℕ) (hn : 0 < n) (hc : 0 < c) :
    ((n + c - 1) / c) * c < n + c := by
  have h0 : n + c - 1 = (n - 1) + c := by omega
  rw [h0, Nat.add_div_right _ hc, Nat.add_mul, one_mul]
  have h3 : ((n - 1) / c) * c ≤ n - 1 := Nat.div_mul_le_self _ _
  obtain ⟨t, ht⟩ : ∃ t, ((n - 1) / c) * c = t := ⟨_, rfl⟩
  rw [ht] at h3 ⊢
  omega

lemma planGrid_num_cols_eq (n pc cw ch : ℕ) :
    (planGrid n pc cw ch).num_cols = if pc = 0 then ceilSqrt n else pc := rfl

lemma planGrid_output_width_eq (n pc cw ch : ℕ) :
    (planGrid n pc cw ch).output_width =
      (planGrid n pc cw ch).num_cols * cw % 4294967296 := rfl

lemma planGrid_num_cols_pos (n pc cw ch : ℕ) (hn : 0 < n) :
    0 < (planGrid n pc cw ch).num_cols := by
  rw [planGrid_num_cols_eq]
  split_ifs with h
  · exact ceilSqrt_pos n hn
  · omega

lemma planGrid_num_rows_eq (n pc cw ch : ℕ) (hn : 0 < n) :
    (planGrid n pc cw ch).num_rows =
      (n + (planGrid n pc cw ch).num_cols - 1) / (planGrid n pc cw ch).num_cols := by
  have hpos := planGrid_num_cols_pos n pc cw ch hn
  show (if (planGrid n pc cw ch).num_cols = 0 then 0
        else (n + (planGrid n pc cw ch).num_cols - 1) / (planGrid n pc cw ch).num_cols) = _
  rw [if_neg (by omega)]

/-- C1 counterexample: at a reachable input — 2 results, auto columns,
cell width 4000000000 (a valid `u32`) — the canvas width is not
`columns * cell_width`: the `u32` product `2 * 4000000000` overflows, so a
release build wraps it to `3705032704` (a debug build panics outright);
either way the claimed exact canvas size is not produced.  The `f32`
column computation is exact at count 2, so the model is faithful here. -/
theorem grid_layout_overflow_counterexample :
    (planGrid 2 0 4000000000 100).num_cols = 2 ∧
    (planGrid 2 0 4000000000 100).output_width = 3705032704 ∧
    ¬((planGrid 2 0 4000000000 100).output_width =
      (planGrid 2 0 4000000000 100).num_cols * 4000000000) := by
  have h2 : ceilSqrt 2 = 2 :=
    le_antisymm (ceilSqrt_le_of_le_sq 2 2 (by norm_num)) (lt_ceilSqrt 2 1 (by norm_num))
  have hc : (planGrid 2 0 4000000000 100).num_cols = 2 := by
    rw [planGrid_num_cols_eq, if_pos rfl, h2]
  refine ⟨hc, ?_, ?_⟩
  · rw [planGrid_output_width_eq, hc]
  · rw [planGrid_output_width_eq, hc]
    decide

/-- C1 amended: for every result count `n` with `0 < n < 2^24` (the range
where the source's `f32` layout arithmetic is exact) and cell dimensions
whose canvas products fit in `u32` (so no overflow wrap or panic occurs),
the layout computes `columns = ceil(sqrt(count))` when the preferred
column count is 0 (stated as: the square of `num_cols` reaches `count` and
`num_cols` is least such), `columns = preferred` otherwise,
`rows = ceil(count / columns)` with true ceiling semantics (stated as:
`rows * columns` reaches `count` but exceeds it by less than one column),
the canvas is exactly `columns * cell_width` by `rows * cell_height`, and
the spec's examples `plan(10, 0) = (4 columns, 3 rows)` and
`plan(9, 0) = (3, 3)` hold. -/
theorem grid_layout_columns_rows_canvas (n pc cw ch : ℕ) (hn : 0 < n)
    (hn24 : n < 16777216)
    (hW : (planGrid n pc cw ch).num_cols * cw < 4294967296)
    (hH : (planGrid n pc cw ch).num_rows * ch < 4294967296) :
    (pc = 0 →
      n ≤ (planGrid n pc cw ch).num_cols * (planGrid n pc cw ch).num_cols ∧
      ∀ c : ℕ, n ≤ c * c → (planGrid n pc cw ch).num_cols ≤ c) ∧
    (pc ≠ 0 → (planGrid n pc cw ch).num_cols = pc) ∧
    n ≤ (planGrid n pc cw ch).num_rows * (planGrid n pc cw ch).num_cols ∧
    (planGrid n pc cw ch).num_rows * (planGrid n pc cw ch).num_cols
      < n + (planGrid n pc cw ch).num_cols ∧
    (planGrid n pc cw ch).output_width = (planGrid n pc cw ch).num_cols * cw ∧
    (planGrid n pc cw ch).output_height = (planGrid n pc cw ch).num_rows * ch ∧
    (planGrid 10 0 cw ch).num_cols = 4 ∧ (planGrid 10 0 cw ch).num_rows = 3 ∧
    (planGrid 9 0 cw ch).num_cols = 3 ∧ (planGrid 9 0 cw ch).num_rows = 3 := by
  have hpos := planGrid_num_cols_pos n pc cw ch hn
  have hrows := planGrid_num_rows_eq n pc cw ch hn
  have hc10 : (planGrid 10 0 cw ch).num_cols = 4 := by
    rw [planGrid_num_cols_eq, if_pos rfl, ceilSqrt_ten]
  have hc9 : (planGrid 9 0 cw ch).num_cols = 3 := by
    rw [planGrid_num_cols_eq, if_pos rfl, ceilSqrt_nine]
  have hr10 : (planGrid 10 0 cw ch).num_rows = 3 := by
    rw [planGrid_num_rows_eq 10 0 cw ch (by omega), hc10]
  have hr9 : (planGrid 9 0 cw ch).num_rows = 3 := by
    rw [planGrid_num_rows_eq 9 0 cw ch (by omega), hc9]
  refine ⟨?_, ?_, ?_, ?_, ?_, ?_, hc10, hr10, hc9, hr9⟩
  · intro h0
    rw [planGrid_num_cols_eq, if_pos h0]
    exact ⟨ceilSqrt_sq_ge n, fun c hc => ceilSqrt_le_of_le_sq n c hc⟩
  · intro h0
    rw [planGrid_num_cols_eq, if_neg h0]
  · rw [hrows]
    exact ceil_div_lower n _ hn hpos
  · rw [hrows]
    exact ceil_div_upper n _ hn hpos
  · show (planGrid n pc cw ch).num_cols * cw % 4294967296 =
      (planGrid n pc cw ch).num_cols * cw
    exact Nat.mod_eq_of_lt hW
  · show (planGrid n pc cw ch).num_rows * ch % 4294967296 =
      (planGrid n pc cw ch).num_rows * ch
    exact Nat.mod_eq_of_lt hH

/-- Witness for the amended C1, at `count = 10`, auto columns, cell `5 × 7`
(products far below `2^32`). -/
theorem grid_layout_columns_rows_canvas_inst :
    0 < 10 ∧ 10 < 16777216 ∧
    (planGrid 10 0 5 7).num_cols * 5 < 4294967296 ∧
    (planGrid 10 0 5 7).num_rows * 7 < 4294967296 ∧
    ((0 = 0 →
      10 ≤ (planGrid 10 0 5 7).num_cols * (planGrid 10 0 5 7).num_cols ∧
      ∀ c : ℕ, 10 ≤ c * c → (planGrid 10 0 5 7).num_cols ≤ c) ∧
    (0 ≠ 0 → (planGrid 10 0 5 7).num_cols = 0) ∧
    10 ≤ (planGrid 10 0 5 7).num_rows * (planGrid 10 0 5 7).num_cols ∧
    (planGrid 10 0 5 7).num_rows * (planGrid 10 0 5 7).num_cols
      < 10 + (planGrid 10 0 5 7).num_cols ∧
    (planGrid 10 0 5 7).output_width = (planGrid 10 0 5 7).num_cols * 5 ∧
    (planGrid 10 0 5 7).output_height = (planGrid 10 0 5 7).num_rows * 7 ∧
    (planGrid 10 0 5 7).num_cols = 4 ∧ (planGrid 10 0 5 7).num_rows = 3 ∧
    (planGrid 9 0 5 7).num_cols = 3 ∧ (planGrid 9 0 5 7).num_rows = 3) := by
  have hW : (planGrid 10 0 5 7).num_cols * 5 < 4294967296 := by
    rw [planGrid_num_cols_eq]
    norm_num [ceilSqrt_ten]
  have hH : (planGrid 10 0 5 7).num_rows * 7 < 4294967296 := by
    rw [planGrid_num_rows_eq 10 0 5 7 (by norm_num), planGrid_num_cols_eq]
    norm_num [ceilSqrt_ten]
  exact ⟨by norm_num, by norm_num, hW, hH,
    grid_layout_columns_rows_canvas 10 0 5 7 (by norm_num) (by norm_num) hW hH⟩

/-- C7 counterexample: with zero results but a nonzero preferred column count,
the layout does not yield `columns = 0` (the source takes `opt.columns`
unchanged whenever it is nonzero). -/
theorem layout_zero_count_cols_counterexample :
    (planGrid 0 5 10 10).num_cols = 5 ∧ ¬ (planGrid 0 5 10 10).num_cols = 0 := by
  constructor
  · rfl
  · decide

/-- C7 amended: with zero results and preferred column count 0, the layout
yields `columns = rows = 0` and a `0 × 0` canvas; with a nonzero preferred
column count `pc`, it yields `columns = pc` but still `rows = 0` and a
canvas of height 0 (zero pixels).  In all cases this is a normal value,
not an error. -/
theorem layout_zero_count_amended (pc cw ch : ℕ) (hpc : pc ≠ 0) :
    (planGrid 0 0 cw ch).num_cols = 0 ∧ (planGrid 0 0 cw ch).num_rows = 0 ∧
    (planGrid 0 0 cw ch).output_width = 0 ∧ (planGrid 0 0 cw ch).output_height = 0 ∧
    (planGrid 0 pc cw ch).num_cols = pc ∧ (planGrid 0 pc cw ch).num_rows = 0 ∧
    (planGrid 0 pc cw ch).output_height = 0 := by
  have hc : (planGrid 0 pc cw ch).num_cols = pc := by
    rw [planGrid_num_cols_eq, if_neg hpc]
  have hr : (planGrid 0 pc cw ch).num_rows = 0 := by
    show (if (if pc = 0 then ceilSqrt 0 else pc) = 0 then 0
          else (0 + (if pc = 0 then ceilSqrt 0 else pc) - 1)
            / (if pc = 0 then ceilSqrt 0 else pc)) = 0
    rw [if_neg hpc, if_neg hpc]
    exact Nat.div_eq_of_lt (by omega)
  refine ⟨rfl, rfl, ?_, ?_, hc, hr, ?_⟩
  · show (planGrid 0 0 cw ch).num_cols * cw % 4294967296 = 0
    rw [show (planGrid 0 0 cw ch).num_cols = 0 from rfl, Nat.zero_mul, Nat.zero_mod]
  · show (planGrid 0 0 cw ch).num_rows * ch % 4294967296 = 0
    rw [show (planGrid 0 0 cw ch).num_rows = 0 from rfl, Nat.zero_mul, Nat.zero_mod]
  · show (planGrid 0 pc cw ch).num_rows * ch % 4294967296 = 0
    rw [hr, Nat.zero_mul, Nat.zero_mod]

/-- Witness for the amended C7, at preferred columns 5, cell `2 × 3`. -/
theorem layout_zero_count_amended_inst :
    5 ≠ 0 ∧
    ((planGrid 0 0 2 3).num_cols = 0 ∧ (planGrid 0 0 2 3).num_rows = 0 ∧
    (planGrid 0 0 2 3).output_width = 0 ∧ (planGrid 0 0 2 3).output_height = 0 ∧
    (planGrid 0 5 2 3).num_cols = 5 ∧ (planGrid 0 5 2 3).num_rows = 0 ∧
    (planGrid 0 5 2 3).output_height = 0) :=
  ⟨by decide, layout_zero_count_amended 5 2 3 (by decide)⟩

/-! ## Argument parsing (`src/parsing.rs`) -/

/-- Rust `str::split(divider)` over the characters of the string: splits at
every occurrence of `divider`, keeping empty pieces (so a leading, trailing
or doubled divider yields empty strings, as in Rust). -/
def splitOn (divider : Char) : List Char → List (List Char)
  | [] => [[]]
  | c :: rest =>
    if c = divider then [] :: splitOn divider rest
    else
      match splitOn divider rest with
      | [] => [[c]]
      | g :: gs => (c :: g) :: gs

/-- Digit accumulation of Rust `u32::from_str`: left-to-right, failing on any
non-digit character. -/
def digitsValAux : ℕ → List Char → Option ℕ
  | acc, [] => some acc
  | acc, c :: rest =>
    if c.isDigit then digitsValAux (acc * 10 + (c.toNat - 48)) rest else none

/-- Rust `src.parse::<u32>()`: an optional leading `+`, then one or more
ASCII digits, with the value required to fit in a `u32`. -/
def parseU32Chars (cs : List Char) : Option ℕ :=
  match (match cs with | '+' :: rest => rest | _ => cs) with
  | [] => none
  | c :: rest =>
    match digitsValAux 0 (c :: rest) with
    | none => none
    | some v => if v < 4294967296 then some v else none

def errCouldNotParse : String := "Could not parse integer value"

def errDimensions : String := "Dimensions should use WIDTHxHEIGHT"

/-- `parse_integer` (`parsing.rs` 3–5). -/
def parse_integer (src : List Char) : Except String ℕ :=
  match parseU32Chars src with
  | some v => Except.ok v
  | none => Except.error errCouldNotParse

/-- `parse_integer_list` (`parsing.rs` 7–9). -/
def parse_integer_list (src : List Char) (divider : Char) : Except String (List ℕ) :=
  (splitOn divider src).mapM parse_integer

/-- `parse_image_dimensions` (`parsing.rs` 11–18): parses a `WIDTHxHEIGHT`
string into a width/height pair.  Note there is no positivity check on
either component. -/
def parse_image_dimensions (src : String) : Except String (ℕ × ℕ) :=
  match parse_integer_list src.toList 'x' with
  | Except.error e => Except.error e
  | Except.ok values =>
    match values with
    | [a, b] => Except.ok (a, b)
    | _ => Except.error errDimensions

def zeroWidthDims : String := "0x100"

def zeroHeightDims : String := "100x0"

/-- C6 counterexample: `parse_image_dimensions` — the only place cell
dimensions pass through before `main` uses them — accepts a zero cell
width, so positive cell dimensions are not validated before alignment. -/
theorem cell_dims_zero_accepted :
    parse_image_dimensions zeroWidthDims = Except.ok (0, 100) := by
  rfl

/-! ## Face aligner (`main.rs` lines 108–113 and 155–166), over `ℚ` -/

/-- Modelled from the spec: `fit_inside` lives in the repository's `geom.rs`,
which is not under `src/`.  Per §4.1 it returns the largest dimension with
`content`'s aspect ratio fitting inside `container`:
`scale = min(container.w / content.w, container.h / content.h)` and the
result is `content * scale`. -/
def fit_inside (container content : ℚ × ℚ) : ℚ × ℚ :=
  (content.1 * min (container.1 / content.1) (container.2 / content.2),
   content.2 * min (container.1 / content.1) (container.2 / content.2))

/-- Modelled from the spec: the float→integer coordinate conversion of
`geom.rs` (not under `src/`); §4.2 and §9 fix round-half-away-from-zero as
the rounding rule. -/
def roundHalfAwayFromZero (q : ℚ) : ℤ :=
  if 0 ≤ q then ⌊q + 1 / 2⌋ else -⌊-q + 1 / 2⌋

/-- Modelled from the spec: `xyf_to_xyi` of `geom.rs` (not under `src/`),
componentwise float→integer conversion of a point. -/
def xyf_to_xyi (p : ℚ × ℚ) : ℤ × ℤ :=
  (roundHalfAwayFromZero p.1, roundHalfAwayFromZero p.2)

/-- The per-run target face box (`main.rs` 108–113): fit a typical
`75 × 100` face inside the cell, then scale by `0.6 * face_scale`. -/
def target_faces_rect (cell_width cell_height : ℕ) (face_scale : ℚ) : ℚ × ℚ :=
  ((fit_inside ((cell_width : ℚ), (cell_height : ℚ)) (75, 100)).1 * (6 / 10 * face_scale),
   (fit_inside ((cell_width : ℚ), (cell_height : ℚ)) (75, 100)).2 * (6 / 10 * face_scale))

/-- The uniform rescale factor for one image (`main.rs` 157–160):
width of the face box fitted inside the target box, divided by the face
width. -/
def new_image_scale (tfr : ℚ × ℚ) (face_w face_h : ℚ) : ℚ :=
  (fit_inside tfr (face_w, face_h)).1 / face_w

/-- The paste offset for one image (`main.rs` 163–166): the rounded
difference between the cell center and the scaled face center. -/
def param_offset (cell_width cell_height : ℕ) (face_x face_y face_w face_h s : ℚ) :
    ℤ × ℤ :=
  xyf_to_xyi ((cell_width : ℚ) / 2 - (face_x + face_w / 2) * s,
              (cell_height : ℚ) / 2 - (face_y + face_h / 2) * s)

lemma roundHalfAwayFromZero_abs (q : ℚ) :
    |((roundHalfAwayFromZero q : ℤ) : ℚ) - q| ≤ 1 / 2 := by
  unfold roundHalfAwayFromZero
  split_ifs with h
  · have h1 : ((⌊q + 1 / 2⌋ : ℤ) : ℚ) ≤ q + 1 / 2 := Int.floor_le _
    have h2 : q + 1 / 2 < (⌊q + 1 / 2⌋ : ℤ) + 1 := Int.lt_floor_add_one _
    rw [abs_le]
    constructor <;> linarith
  · have h1 : ((⌊-q + 1 / 2⌋ : ℤ) : ℚ) ≤ -q + 1 / 2 := Int.floor_le _
    have h2 : -q + 1 / 2 < (⌊-q + 1 / 2⌋ : ℤ) + 1 := Int.lt_floor_add_one _
    rw [abs_le]
    push_cast
    constructor <;> linarith

/-- C5: the scaled face center plus the computed offset lands on the cell's
geometric center within ±1 pixel, on both axes, for any face rectangle with
positive dimensions and any face-scale multiplier. -/
theorem aligner_centers_scaled_face (cell_width cell_height : ℕ)
    (face_scale face_x face_y face_w face_h : ℚ)
    (hfw : 0 < face_w) (hfh : 0 < face_h) :
    |(face_x + face_w / 2) *
        new_image_scale (target_faces_rect cell_width cell_height face_scale) face_w face_h +
       (((param_offset cell_width cell_height face_x face_y face_w face_h
           (new_image_scale (target_faces_rect cell_width cell_height face_scale)
             face_w face_h)).1 : ℤ) : ℚ) -
       (cell_width : ℚ) / 2| ≤ 1 ∧
    |(face_y + face_h / 2) *
        new_image_scale (target_faces_rect cell_width cell_height face_scale) face_w face_h +
       (((param_offset cell_width cell_height face_x face_y face_w face_h
           (new_image_scale (target_faces_rect cell_width cell_height face_scale)
             face_w face_h)).2 : ℤ) : ℚ) -
       (cell_height : ℚ) / 2| ≤ 1 := by
  obtain ⟨s, hs⟩ :
      ∃ s, new_image_scale (target_faces_rect cell_width cell_height face_scale)
        face_w face_h = s := ⟨_, rfl⟩
  rw [hs]
  unfold param_offset xyf_to_xyi
  constructor
  · have h := roundHalfAwayFromZero_abs ((cell_width : ℚ) / 2 - (face_x + face_w / 2) * s)
    have he : (face_x + face_w / 2) * s +
        ((roundHalfAwayFromZero ((cell_width : ℚ) / 2 - (face_x + face_w / 2) * s) : ℤ) : ℚ) -
        (cell_width : ℚ) / 2 =
        ((roundHalfAwayFromZero ((cell_width : ℚ) / 2 - (face_x + face_w / 2) * s) : ℤ) : ℚ) -
        ((cell_width : ℚ) / 2 - (face_x + face_w / 2) * s) := by ring
    rw [he]
    linarith
  · have h := roundHalfAwayFromZero_abs ((cell_height : ℚ) / 2 - (face_y + face_h / 2) * s)
    have he : (face_y + face_h / 2) * s +
        ((roundHalfAwayFromZero ((cell_height : ℚ) / 2 - (face_y + face_h / 2) * s) : ℤ) : ℚ) -
        (cell_height : ℚ) / 2 =
        ((roundHalfAwayFromZero ((cell_height : ℚ) / 2 - (face_y + face_h / 2) * s) : ℤ) : ℚ) -
        ((cell_height : ℚ) / 2 - (face_y + face_h / 2) * s) := by ring
    rw [he]
    linarith

/-- Witness for C5, at cell `100 × 100`, face scale 1, face rectangle
`(10, 20, 30, 40)`. -/
theorem aligner_centers_scaled_face_inst :
    (0 : ℚ) < 30 ∧
    (|((10 : ℚ) + 30 / 2) *
        new_image_scale (target_faces_rect 100 100 1) 30 40 +
       (((param_offset 100 100 10 20 30 40
           (new_image_scale (target_faces_rect 100 100 1) 30 40)).1 : ℤ) : ℚ) -
       (100 : ℚ) / 2| ≤ 1 ∧
     |((20 : ℚ) + 40 / 2) *
        new_image_scale (target_faces_rect 100 100 1) 30 40 +
       (((param_offset 100 100 10 20 30 40
           (new_image_scale (target_faces_rect 100 100 1) 30 40)).2 : ℤ) : ℚ) -
       (100 : ℚ) / 2| ≤ 1) :=
  ⟨by norm_num,
   aligner_centers_scaled_face 100 100 1 10 20 30 40 (by norm_num) (by norm_num)⟩

/-! ## Reading loop and `max_images` (`main.rs` lines 128–186)

Each input file is abstracted to `Option α`: `some r` when it decodes and
has exactly one detected face (yielding an aligned result `r`), `none` when
it is skipped for any reason.  The loop body pushes the result, then — after
every file, successful or not — checks
`opt.max_images > 0 && results.len() >= opt.max_images` and breaks. -/

def readLoopAux {α : Type} (maxImages : ℕ) : List (Option α) → List α → List α
  | [], results => results
  | item :: rest, results =>
    match item with
    | some r =>
      if 0 < maxImages ∧ maxImages ≤ (results ++ [r]).length then results ++ [r]
      else readLoopAux maxImages rest (results ++ [r])
    | none =>
      if 0 < maxImages ∧ maxImages ≤ results.length then results
      else readLoopAux maxImages rest results

/-- The result list collected by the reading loop of `main`. -/
def readLoop {α : Type} (maxImages : ℕ) (items : List (Option α)) : List α :=
  readLoopAux maxImages items []

lemma readLoopAux_zero {α : Type} (items : List (Option α)) :
    ∀ results : List α, readLoopAux 0 items results = results ++ items.filterMap id := by
  induction items with
  | nil => intro results; simp [readLoopAux]
  | cons item rest ih =>
    intro results
    match item with
    | some r =>
      rw [show readLoopAux 0 (some r :: rest) results =
            (if 0 < 0 ∧ 0 ≤ (results ++ [r]).length then results ++ [r]
             else readLoopAux 0 rest (results ++ [r])) from rfl]
      rw [if_neg (by omega)]
      rw [ih (results ++ [r])]
      simp [List.filterMap_cons]
    | none =>
      rw [show readLoopAux 0 (none :: rest) results =
            (if 0 < 0 ∧ 0 ≤ results.length then results
             else readLoopAux 0 rest results) from rfl]
      rw [if_neg (by omega)]
      rw [ih results]
      simp [List.filterMap_cons]

lemma readLoopAux_take {α : Type} (m : ℕ) (hm : 0 < m) (items : List (Option α)) :
    ∀ results : List α, results.length < m →
      readLoopAux m items results = (results ++ items.filterMap id).take m := by
  induction items with
  | nil =>
    intro results hlen
    simp [readLoopAux, List.take_of_length_le, Nat.le_of_lt hlen]
  | cons item rest ih =>
    intro results hlen
    match item with
    | some r =>
      rw [show readLoopAux m (some r :: rest) results =
            (if 0 < m ∧ m ≤ (results ++ [r]).length then results ++ [r]
             else readLoopAux m rest (results ++ [r])) from rfl]
      by_cases hb : m ≤ (results ++ [r]).length
      · rw [if_pos ⟨hm, hb⟩]
        have hlen2 : (results ++ [r]).length = m := by
          simp only [List.length_append, List.length_cons, List.length_nil] at hb ⊢
          omega
        rw [List.filterMap_cons]
        simp only [id]
        rw [show results ++ r :: rest.filterMap id = (results ++ [r]) ++ rest.filterMap id
              from by simp]
        rw [List.take_left' hlen2]
      · rw [if_neg (by tauto)]
        have hlen2 : (results ++ [r]).length < m := by
          simp only [List.length_append, List.length_cons, List.length_nil] at hb ⊢
          omega
        rw [ih (results ++ [r]) hlen2]
        rw [List.filterMap_cons]
        simp only [id]
        rw [show results ++ r :: rest.filterMap id = (results ++ [r]) ++ rest.filterMap id
              from by simp]
    | none =>
      rw [show readLoopAux m (none :: rest) results =
            (if 0 < m ∧ m ≤ results.length then results
             else readLoopAux m rest results) from rfl]
      rw [if_neg (by omega)]
      rw [ih results hlen]
      simp [List.filterMap_cons]

/-- C9: with `max_images = m > 0` the reading loop collects exactly the
first `min m (number of valid results)` results — the valid prefix truncated
at `m` — so at most `m` results reach the layout/composite phase; with
`m = 0` every valid result is collected. -/
theorem max_images_bounds_results (α : Type) (m : ℕ) (items : List (Option α)) :
    (0 < m → readLoop m items = (items.filterMap id).take m) ∧
    (0 < m → (readLoop m items).length ≤ m) ∧
    readLoop 0 items = items.filterMap id := by
  refine ⟨?_, ?_, ?_⟩
  · intro hm
    unfold readLoop
    rw [readLoopAux_take m hm items [] (by simpa using hm)]
    simp
  · intro hm
    unfold readLoop
    rw [readLoopAux_take m hm items [] (by simpa using hm)]
    simp
  · unfold readLoop
    rw [readLoopAux_zero items []]
    simp

def readLoopItems : List (Option ℕ) := [some 1, none, some 2, some 3]

/-- Witness for C9, at `max_images = 2` over four files of which three are
valid. -/
theorem max_images_bounds_results_inst :
    0 < 2 ∧
    readLoop 2 readLoopItems = (readLoopItems.filterMap id).take 2 ∧
    (readLoop 2 readLoopItems).length ≤ 2 ∧
    readLoop 0 readLoopItems = readLoopItems.filterMap id :=
  ⟨by decide,
   (max_images_bounds_results ℕ 2 readLoopItems).1 (by decide),
   (max_images_bounds_results ℕ 2 readLoopItems).2.1 (by decide),
   (max_images_bounds_results ℕ 2 readLoopItems).2.2⟩

/-! ## Pixel buffers and the compositor (`copy_image`, `main.rs` lines 20–48)

`RgbImage` / `RgbaImage` model the `image` crate buffers: a width, a height
and a pixel function; `get_pixel` / `put_pixel` panic (here: `none`) when
the coordinates are out of bounds, exactly as the crate does.  Channel
values are copied, never computed on, so they are plain naturals. -/

structure RgbImage where
  width : ℕ
  height : ℕ
  pix : ℕ → ℕ → ℕ × ℕ × ℕ

structure RgbaImage where
  width : ℕ
  height : ℕ
  pix : ℕ → ℕ → ℕ × ℕ × ℕ × ℕ

def RgbImage.get_pixel (img : RgbImage) (x y : ℕ) : Option (ℕ × ℕ × ℕ) :=
  if x < img.width ∧ y < img.height then some (img.pix x y) else none

def RgbaImage.put_pixel (img : RgbaImage) (x y : ℕ) (c : ℕ × ℕ × ℕ × ℕ) :
    Option RgbaImage :=
  if x < img.width ∧ y < img.height then
    some ⟨img.width, img.height, fun a b => if a = x ∧ b = y then c else img.pix a b⟩
  else none

/-- `Rgba([top_px[0], top_px[1], top_px[2], 255])` (`main.rs` 45): the three
source channels with the alpha channel forced to 255. -/
def rgbaOf (c : ℕ × ℕ × ℕ) : ℕ × ℕ × ℕ × ℕ := (c.1, c.2.1, c.2.2, 255)

/-- Modelled from the spec: `intersect` lives in the repository's `geom.rs`,
which is not under `src/`.  Per §4.1: the overlap of two axis-aligned
rectangles `(x, y, w, h)` (integer variant: `x, y` are `i32`, `w, h` are
`u32`), returned in `a`'s local frame; a zero-width or zero-height overlap
counts as no overlap. -/
def intersect (a b : ℤ × ℤ × ℕ × ℕ) : Option (ℤ × ℤ × ℕ × ℕ) :=
  if max a.1 b.1 < min (a.1 + (a.2.2.1 : ℤ)) (b.1 + (b.2.2.1 : ℤ)) ∧
     max a.2.1 b.2.1 < min (a.2.1 + (a.2.2.2 : ℤ)) (b.2.1 + (b.2.2.2 : ℤ)) then
    some (max a.1 b.1 - a.1, max a.2.1 b.2.1 - a.2.1,
          (min (a.1 + (a.2.2.1 : ℤ)) (b.1 + (b.2.2.1 : ℤ)) - max a.1 b.1).toNat,
          (min (a.2.1 + (a.2.2.2 : ℤ)) (b.2.1 + (b.2.2.2 : ℤ)) - max a.2.1 b.2.1).toNat)
  else none

/-- How `copy_image` can abort the run: the explicit
`panic!("Cannot blend image; no intersection ...")` on an empty
intersection, or an out-of-bounds pixel access panic inside the loop. -/
inductive CopyError where
  | noIntersection
  | outOfBounds

/-- The inner `for dst_x in dst_x1..dst_x2` loop of `copy_image`
(`main.rs` 37–46), one row at `dst_y`, recursing on the number of remaining
columns.  `offCellX` is `cell_top_offset.0 + cell.0`, so
`src_x = (dst_x - cell_top_offset.0 - cell.0) as u32` is
`i32AsU32 (dstX - offCellX)`. -/
def copyRowAux (top : RgbImage) (srcY : ℕ) (offCellX : ℤ) (dstY : ℤ) :
    ℕ → ℤ → RgbaImage → Except CopyError RgbaImage
  | 0, _, bottom => Except.ok bottom
  | n + 1, dstX, bottom =>
    match top.get_pixel (i32AsU32 (dstX - offCellX)) srcY with
    | none => Except.error CopyError.outOfBounds
    | some c =>
      match bottom.put_pixel (i32AsU32 dstX) (i32AsU32 dstY) (rgbaOf c) with
      | none => Except.error CopyError.outOfBounds
      | some b => copyRowAux top srcY offCellX dstY n (dstX + 1) b

/-- The outer `for dst_y in dst_y1..dst_y2` loop of `copy_image`
(`main.rs` 35–47), recursing on the number of remaining rows; computes
`src_y = (dst_y - cell_top_offset.1 - cell.1) as u32` per row. -/
def copyRowsAux (top : RgbImage) (offX offY cellX cellY dstX1 : ℤ) (w : ℕ) :
    ℕ → ℤ → RgbaImage → Except CopyError RgbaImage
  | 0, _, bottom => Except.ok bottom
  | m + 1, dstY, bottom =>
    match copyRowAux top (i32AsU32 (dstY - offY - cellY)) (offX + cellX) dstY w dstX1 bottom with
    | Except.error e => Except.error e
    | Except.ok b => copyRowsAux top offX offY cellX cellY dstX1 w m (dstY + 1) b

/-- `copy_image` (`main.rs` 20–48): intersect the cell-local cell rectangle
`(0, 0, cell.2, cell.3)` with the image rectangle placed at
`cell_top_offset`; panic (`noIntersection`) when empty, else copy the
clipped block row by row.  `dst_x1/dst_y1/dst_x2/dst_y2` are as in the
source (`main.rs` 30–33), including the `intersection_rect.2 as i32`
casts. -/
def copy_image (bottom : RgbaImage) (top : RgbImage) (cell_top_offset : ℤ × ℤ)
    (cell : ℤ × ℤ × ℕ × ℕ) : Except CopyError RgbaImage :=
  match intersect (0, 0, cell.2.2.1, cell.2.2.2)
      (cell_top_offset.1, cell_top_offset.2, top.width, top.height) with
  | none => Except.error CopyError.noIntersection
  | some intersection_rect =>
    let dst_x1 := intersection_rect.1 + cell.1
    let dst_y1 := intersection_rect.2.1 + cell.2.1
    let dst_x2 := intersection_rect.1 + u32AsI32 intersection_rect.2.2.1 + cell.1
    let dst_y2 := intersection_rect.2.1 + u32AsI32 intersection_rect.2.2.2 + cell.2.1
    copyRowsAux top cell_top_offset.1 cell_top_offset.2 cell.1 cell.2.1 dst_x1
      ((dst_x2 - dst_x1).toNat) ((dst_y2 - dst_y1).toNat) dst_y1 bottom

/-- The compositing loop of `main` (`main.rs` 216–228): the `i`-th result
(0-based, `i` = `num_images_blended`) is pasted at the cell whose top-left
is `(col * cell_width, row * cell_height)` with `col = i % num_cols`,
`row = i / num_cols`, each cast `as i32`. -/
def blendLoop (num_cols cell_width cell_height : ℕ) :
    List (RgbImage × ℤ × ℤ) → ℕ → RgbaImage → Except CopyError RgbaImage
  | [], _, canvas => Except.ok canvas
  | r :: rest, i, canvas =>
    match copy_image canvas r.1 r.2
        (u32AsI32 (i % num_cols * cell_width), u32AsI32 (i / num_cols * cell_height),
         cell_width, cell_height) with
    | Except.error e => Except.error e
    | Except.ok c => blendLoop num_cols cell_width cell_height rest (i + 1) c

lemma get_pixel_eq_some (img : RgbImage) (x y : ℕ)
    (hx : x < img.width) (hy : y < img.height) :
    img.get_pixel x y = some (img.pix x y) := by
  unfold RgbImage.get_pixel
  rw [if_pos ⟨hx, hy⟩]

lemma put_pixel_spec (img : RgbaImage) (x y : ℕ) (c : ℕ × ℕ × ℕ × ℕ)
    (hx : x < img.width) (hy : y < img.height) :
    ∃ b : RgbaImage, img.put_pixel x y c = some b ∧
      b.width = img.width ∧ b.height = img.height ∧
      ∀ i j : ℕ, b.pix i j = if i = x ∧ j = y then c else img.pix i j := by
  refine ⟨⟨img.width, img.height, fun a b => if a = x ∧ b = y then c else img.pix a b⟩,
    ?_, rfl, rfl, fun i j => rfl⟩
  unfold RgbaImage.put_pixel
  rw [if_pos ⟨hx, hy⟩]

lemma copyRowAux_spec (top : RgbImage) (srcY : ℕ) (offCellX dstY : ℤ) (n : ℕ) :
    ∀ (dstX : ℤ) (bottom : RgbaImage),
      0 ≤ dstX → 0 ≤ dstY →
      dstX + n ≤ (bottom.width : ℤ) → dstY < (bottom.height : ℤ) →
      bottom.width < 4294967296 → bottom.height < 4294967296 →
      offCellX ≤ dstX → dstX + n - offCellX ≤ (top.width : ℤ) →
      srcY < top.height → top.width < 4294967296 →
      ∃ b : RgbaImage,
        copyRowAux top srcY offCellX dstY n dstX bottom = Except.ok b ∧
        b.width = bottom.width ∧ b.height = bottom.height ∧
        ∀ i j : ℕ, b.pix i j =
          if j = dstY.toNat ∧ dstX ≤ (i : ℤ) ∧ (i : ℤ) < dstX + n then
            rgbaOf (top.pix ((i : ℤ) - offCellX).toNat srcY)
          else bottom.pix i j := by
  induction n with
  | zero =>
    intro dstX bottom _ _ _ _ _ _ _ _ _ _
    refine ⟨bottom, rfl, rfl, rfl, ?_⟩
    intro i j
    rw [if_neg (by rintro ⟨h1, h2, h3⟩; omega)]
  | succ n ih =>
    intro dstX bottom hdx0 hdy0 hdxW hdyH hbw hbh hsx0 hsxW hsy htw
    push_cast at hdxW hsxW
    have hb1 : (bottom.width : ℤ) < 4294967296 := by exact_mod_cast hbw
    have hb2 : (bottom.height : ℤ) < 4294967296 := by exact_mod_cast hbh
    have ht1 : (top.width : ℤ) < 4294967296 := by exact_mod_cast htw
    have hcx : i32AsU32 dstX = dstX.toNat := i32AsU32_eq_toNat dstX hdx0 (by omega)
    have hcy : i32AsU32 dstY = dstY.toNat := i32AsU32_eq_toNat dstY hdy0 (by omega)
    have hcs : i32AsU32 (dstX - offCellX) = (dstX - offCellX).toNat :=
      i32AsU32_eq_toNat _ (by omega) (by omega)
    have hgx : (dstX - offCellX).toNat < top.width := by omega
    have hpx : dstX.toNat < bottom.width := by omega
    have hpy : dstY.toNat < bottom.height := by omega
    have hget : top.get_pixel (i32AsU32 (dstX - offCellX)) srcY =
        some (top.pix (dstX - offCellX).toNat srcY) := by
      rw [hcs]
      exact get_pixel_eq_some top _ srcY hgx hsy
    obtain ⟨b1, hput, hb1w, hb1h, hb1pix⟩ :=
      put_pixel_spec bottom dstX.toNat dstY.toNat
        (rgbaOf (top.pix (dstX - offCellX).toNat srcY)) hpx hpy
    obtain ⟨b, hrec, hbw', hbh', hpix⟩ :=
      ih (dstX + 1) b1 (by omega) hdy0
        (by rw [hb1w]; omega) (by rw [hb1h]; omega)
        (by rw [hb1w]; exact hbw) (by rw [hb1h]; exact hbh)
        (by omega) (by omega) hsy htw
    refine ⟨b, ?_, by rw [hbw', hb1w], by rw [hbh', hb1h], ?_⟩
    · simp only [copyRowAux, hget, hcx, hcy, hput]
      exact hrec
    · intro i j
      rw [hpix i j, hb1pix i j]
      split_ifs with h1 h2 h3 h4 h5
      · rfl
      · exfalso; omega
      · obtain ⟨hi, hj⟩ := h3
        have hiz : (i : ℤ) = dstX := by omega
        rw [hiz]
      · exfalso
        obtain ⟨hi, hj⟩ := h3
        omega
      · exfalso; omega
      · rfl

lemma copyRowsAux_spec (top : RgbImage) (offX offY cellX cellY dstX1 : ℤ) (w : ℕ) (m : ℕ) :
    ∀ (dstY : ℤ) (bottom : RgbaImage),
      0 ≤ dstX1 → 0 ≤ dstY →
      dstX1 + w ≤ (bottom.width : ℤ) → dstY + m ≤ (bottom.height : ℤ) →
      bottom.width < 4294967296 → bottom.height < 4294967296 →
      offX + cellX ≤ dstX1 → dstX1 + w - (offX + cellX) ≤ (top.width : ℤ) →
      offY + cellY ≤ dstY → dstY + m - (offY + cellY) ≤ (top.height : ℤ) →
      top.width < 4294967296 → top.height < 4294967296 →
      ∃ b : RgbaImage,
        copyRowsAux top offX offY cellX cellY dstX1 w m dstY bottom = Except.ok b ∧
        b.width = bottom.width ∧ b.height = bottom.height ∧
        ∀ i j : ℕ, b.pix i j =
          if dstX1 ≤ (i : ℤ) ∧ (i : ℤ) < dstX1 + w ∧ dstY ≤ (j : ℤ) ∧ (j : ℤ) < dstY + m then
            rgbaOf (top.pix ((i : ℤ) - offX - cellX).toNat ((j : ℤ) - offY - cellY).toNat)
          else bottom.pix i j := by
  induction m with
  | zero =>
    intro dstY bottom _ _ _ _ _ _ _ _ _ _ _ _
    refine ⟨bottom, rfl, rfl, rfl, ?_⟩
    intro i j
    rw [if_neg (by rintro ⟨h1, h2, h3, h4⟩; omega)]
  | succ m ih =>
    intro dstY bottom hx0 hy0 hxW hyH hbw hbh hsx0 hsxW hsy0 hsyH htw hth
    push_cast at hyH hsyH
    have hb2 : (bottom.height : ℤ) < 4294967296 := by exact_mod_cast hbh
    have hth2 : (top.height : ℤ) < 4294967296 := by exact_mod_cast hth
    have hsrcY : i32AsU32 (dstY - offY - cellY) = (dstY - offY - cellY).toNat :=
      i32AsU32_eq_toNat _ (by omega) (by omega)
    have hsYlt : (dstY - offY - cellY).toNat < top.height := by omega
    obtain ⟨b1, hrow, hb1w, hb1h, hb1pix⟩ :=
      copyRowAux_spec top ((dstY - offY - cellY).toNat) (offX + cellX) dstY w dstX1 bottom
        hx0 hy0 hxW (by omega) hbw hbh hsx0 hsxW hsYlt htw
    obtain ⟨b, hrec, hbw', hbh', hpix⟩ :=
      ih (dstY + 1) b1 hx0 (by omega)
        (by rw [hb1w]; exact hxW) (by rw [hb1h]; omega)
        (by rw [hb1w]; exact hbw) (by rw [hb1h]; exact hbh)
        hsx0 hsxW (by omega) (by omega) htw hth
    refine ⟨b, ?_, by rw [hbw', hb1w], by rw [hbh', hb1h], ?_⟩
    · simp only [copyRowsAux, hsrcY]
      rw [hrow]
      exact hrec
    · intro i j
      rw [hpix i j, hb1pix i j]
      split_ifs with h1 h2 h3 h4 h5
      · rfl
      · exfalso; omega
      · obtain ⟨hj, hi1, hi2⟩ := h3
        have hjz : (j : ℤ) = dstY := by omega
        rw [hjz, sub_add_eq_sub_sub]
      · exfalso
        obtain ⟨hj, hi1, hi2⟩ := h3
        omega
      · exfalso; omega
      · rfl

lemma intersect_cell_some (cw chh tw th : ℕ) (ox oy : ℤ) (ir : ℤ × ℤ × ℕ × ℕ)
    (h : intersect (0, 0, cw, chh) (ox, oy, tw, th) = some ir) :
    ir.1 = max 0 ox ∧ ir.2.1 = max 0 oy ∧
    (ir.2.2.1 : ℤ) = min (cw : ℤ) (ox + tw) - max 0 ox ∧
    (ir.2.2.2 : ℤ) = min (chh : ℤ) (oy + th) - max 0 oy ∧
    max 0 ox < min (cw : ℤ) (ox + tw) ∧ max 0 oy < min (chh : ℤ) (oy + th) := by
  unfold intersect at h
  simp only [zero_add, sub_zero] at h
  split_ifs at h with hc
  obtain ⟨hx, hy⟩ := hc
  rw [Option.some_inj] at h
  subst h
  refine ⟨rfl, rfl, ?_, ?_, hx, hy⟩
  · exact Int.toNat_of_nonneg (by omega)
  · exact Int.toNat_of_nonneg (by omega)

lemma intersect_zero_w (a b : ℤ × ℤ × ℕ × ℕ) (hw : a.2.2.1 = 0) :
    intersect a b = none := by
  unfold intersect
  rw [if_neg]
  rintro ⟨h1, h2⟩
  rw [hw] at h1
  have h3 : max a.1 b.1 < a.1 + ((0 : ℕ) : ℤ) := lt_of_lt_of_le h1 (min_le_left _ _)
  omega

lemma intersect_zero_h (a b : ℤ × ℤ × ℕ × ℕ) (hh : a.2.2.2 = 0) :
    intersect a b = none := by
  unfold intersect
  rw [if_neg]
  rintro ⟨h1, h2⟩
  rw [hh] at h2
  have h3 : max a.2.1 b.2.1 < a.2.1 + ((0 : ℕ) : ℤ) := lt_of_lt_of_le h2 (min_le_left _ _)
  omega

/-- `copy_image` with a zero cell width aborts with the no-intersection
panic: the cell-local cell rectangle is empty. -/
lemma copy_image_zero_w (bottom : RgbaImage) (top : RgbImage) (off : ℤ × ℤ)
    (cell : ℤ × ℤ × ℕ × ℕ) (hw : cell.2.2.1 = 0) :
    copy_image bottom top off cell = Except.error CopyError.noIntersection := by
  have h0 : intersect (0, 0, cell.2.2.1, cell.2.2.2)
      (off.1, off.2, top.width, top.height) = none := intersect_zero_w _ _ hw
  unfold copy_image
  rw [h0]

/-- `copy_image` with a zero cell height aborts with the no-intersection
panic. -/
lemma copy_image_zero_h (bottom : RgbaImage) (top : RgbImage) (off : ℤ × ℤ)
    (cell : ℤ × ℤ × ℕ × ℕ) (hh : cell.2.2.2 = 0) :
    copy_image bottom top off cell = Except.error CopyError.noIntersection := by
  have h0 : intersect (0, 0, cell.2.2.1, cell.2.2.2)
      (off.1, off.2, top.width, top.height) = none := intersect_zero_h _ _ hh
  unfold copy_image
  rw [h0]

/-- Master specification of `copy_image` for a non-empty intersection `ir`
and a cell lying inside the canvas: the call succeeds and every canvas pixel
inside the clipped destination block `cell + ir` receives the RGB channels
of the source pixel at the destination position minus `offset + cell`, with
alpha 255, while every other canvas pixel is unchanged. -/
lemma copy_image_ok (bottom : RgbaImage) (top : RgbImage) (off : ℤ × ℤ)
    (cell : ℤ × ℤ × ℕ × ℕ) (ir : ℤ × ℤ × ℕ × ℕ)
    (hir : intersect (0, 0, cell.2.2.1, cell.2.2.2)
      (off.1, off.2, top.width, top.height) = some ir)
    (hcx : 0 ≤ cell.1) (hcy : 0 ≤ cell.2.1)
    (hcw : cell.1 + cell.2.2.1 ≤ (bottom.width : ℤ))
    (hch : cell.2.1 + cell.2.2.2 ≤ (bottom.height : ℤ))
    (hbw : bottom.width < 4294967296) (hbh : bottom.height < 4294967296)
    (htw : top.width < 4294967296) (hth : top.height < 4294967296)
    (hcw31 : cell.2.2.1 < 2147483648) (hch31 : cell.2.2.2 < 2147483648) :
    ∃ b : RgbaImage,
      copy_image bottom top off cell = Except.ok b ∧
      b.width = bottom.width ∧ b.height = bottom.height ∧
      ∀ i j : ℕ, b.pix i j =
        if cell.1 + ir.1 ≤ (i : ℤ) ∧ (i : ℤ) < cell.1 + ir.1 + ir.2.2.1 ∧
           cell.2.1 + ir.2.1 ≤ (j : ℤ) ∧ (j : ℤ) < cell.2.1 + ir.2.1 + ir.2.2.2 then
          rgbaOf (top.pix ((i : ℤ) - off.1 - cell.1).toNat ((j : ℤ) - off.2 - cell.2.1).toNat)
        else bottom.pix i j := by
  obtain ⟨hx1, hy1, hw2, hh2, hxlt, hylt⟩ :=
    intersect_cell_some cell.2.2.1 cell.2.2.2 top.width top.height off.1 off.2 ir hir
  have hu32w : u32AsI32 ir.2.2.1 = (ir.2.2.1 : ℤ) := u32AsI32_eq_coe _ (by omega)
  have hu32h : u32AsI32 ir.2.2.2 = (ir.2.2.2 : ℤ) := u32AsI32_eq_coe _ (by omega)
  have hstep : copy_image bottom top off cell =
      copyRowsAux top off.1 off.2 cell.1 cell.2.1 (ir.1 + cell.1)
        ((ir.1 + u32AsI32 ir.2.2.1 + cell.1 - (ir.1 + cell.1)).toNat)
        ((ir.2.1 + u32AsI32 ir.2.2.2 + cell.2.1 - (ir.2.1 + cell.2.1)).toNat)
        (ir.2.1 + cell.2.1) bottom := by
    unfold copy_image
    rw [hir]
  have hwEq : (ir.1 + u32AsI32 ir.2.2.1 + cell.1 - (ir.1 + cell.1)).toNat = ir.2.2.1 := by
    rw [hu32w]
    omega
  have hhEq : (ir.2.1 + u32AsI32 ir.2.2.2 + cell.2.1 - (ir.2.1 + cell.2.1)).toNat = ir.2.2.2 := by
    rw [hu32h]
    omega
  rw [hwEq, hhEq] at hstep
  obtain ⟨b, hrun, hw', hh', hpix⟩ :=
    copyRowsAux_spec top off.1 off.2 cell.1 cell.2.1 (ir.1 + cell.1) ir.2.2.1 ir.2.2.2
      (ir.2.1 + cell.2.1) bottom (by omega) (by omega) (by omega) (by omega) hbw hbh
      (by omega) (by omega) (by omega) (by omega) htw hth
  refine ⟨b, hstep.trans hrun, hw', hh', ?_⟩
  intro i j
  rw [hpix i j]
  split_ifs with hA hB hB
  · rfl
  · exfalso; omega
  · exfalso; omega
  · rfl

lemma copyRowAux_ne_noInt (top : RgbImage) (srcY : ℕ) (offCellX dstY : ℤ) (n : ℕ) :
    ∀ (dstX : ℤ) (bottom : RgbaImage),
      copyRowAux top srcY offCellX dstY n dstX bottom ≠
        Except.error CopyError.noIntersection := by
  induction n with
  | zero =>
    intro dstX bottom
    simp [copyRowAux]
  | succ n ih =>
    intro dstX bottom
    simp only [copyRowAux]
    cases hg : top.get_pixel (i32AsU32 (dstX - offCellX)) srcY with
    | none => simp
    | some c =>
      show (match bottom.put_pixel (i32AsU32 dstX) (i32AsU32 dstY) (rgbaOf c) with
            | none => Except.error CopyError.outOfBounds
            | some b => copyRowAux top srcY offCellX dstY n (dstX + 1) b) ≠
          Except.error CopyError.noIntersection
      cases hp : bottom.put_pixel (i32AsU32 dstX) (i32AsU32 dstY) (rgbaOf c) with
      | none => simp
      | some b => exact ih (dstX + 1) b

lemma copyRowsAux_ne_noInt (top : RgbImage) (offX offY cellX cellY dstX1 : ℤ) (w : ℕ) :
    ∀ (m : ℕ) (dstY : ℤ) (bottom : RgbaImage),
      copyRowsAux top offX offY cellX cellY dstX1 w m dstY bottom ≠
        Except.error CopyError.noIntersection := by
  intro m
  induction m with
  | zero =>
    intro dstY bottom
    simp [copyRowsAux]
  | succ m ih =>
    intro dstY bottom
    simp only [copyRowsAux]
    cases hr : copyRowAux top (i32AsU32 (dstY - offY - cellY)) (offX + cellX) dstY w dstX1 bottom with
    | error e =>
      have hne := copyRowAux_ne_noInt top (i32AsU32 (dstY - offY - cellY))
        (offX + cellX) dstY w dstX1 bottom
      rw [hr] at hne
      simpa using hne
    | ok b => exact ih (dstY + 1) b

lemma blendLoop_append (c cw ch : ℕ) (r : RgbImage × ℤ × ℤ)
    (rs : List (RgbImage × ℤ × ℤ)) :
    ∀ (i : ℕ) (canvas : RgbaImage),
      blendLoop c cw ch (rs ++ [r]) i canvas =
        Except.bind (blendLoop c cw ch rs i canvas)
          (fun b => copy_image b r.1 r.2
            (u32AsI32 ((i + rs.length) % c * cw),
             u32AsI32 ((i + rs.length) / c * ch), cw, ch)) := by
  induction rs with
  | nil =>
    intro i canvas
    simp only [List.nil_append, List.length_nil, Nat.add_zero, blendLoop]
    cases h : copy_image canvas r.1 r.2
        (u32AsI32 (i % c * cw), u32AsI32 (i / c * ch), cw, ch) with
    | error e => simp [blendLoop, h, Except.bind]
    | ok c1 => simp [blendLoop, h, Except.bind]
  | cons s rs' ih =>
    intro i canvas
    simp only [List.cons_append, List.length_cons, blendLoop]
    cases h : copy_image canvas s.1 s.2
        (u32AsI32 (i % c * cw), u32AsI32 (i / c * ch), cw, ch) with
    | error e => simp [h, Except.bind]
    | ok c1 =>
      simp only [h, List.append_eq]
      rw [ih (i + 1) c1]
      have hidx : i + 1 + rs'.length = i + (rs'.length + 1) := by omega
      rw [hidx]

/-! ## Claim theorems about the compositor -/

/-- C2: `copy_image` aborts with the fatal no-intersection panic exactly
when the intersection of the cell-local cell rectangle and the image
rectangle placed at its offset is empty; whenever that intersection is
non-empty, the no-intersection abort cannot occur (the call either
completes or fails for a different reason, an out-of-bounds access). -/
theorem compositor_empty_intersection_fatal (bottom : RgbaImage) (top : RgbImage)
    (off : ℤ × ℤ) (cell : ℤ × ℤ × ℕ × ℕ) :
    (intersect (0, 0, cell.2.2.1, cell.2.2.2) (off.1, off.2, top.width, top.height) = none →
      copy_image bottom top off cell = Except.error CopyError.noIntersection) ∧
    (intersect (0, 0, cell.2.2.1, cell.2.2.2) (off.1, off.2, top.width, top.height) ≠ none →
      copy_image bottom top off cell ≠ Except.error CopyError.noIntersection) := by
  constructor
  · intro h
    unfold copy_image
    rw [h]
  · intro h
    cases hi : intersect (0, 0, cell.2.2.1, cell.2.2.2)
        (off.1, off.2, top.width, top.height) with
    | none => exact absurd hi h
    | some ir =>
      have hstep : copy_image bottom top off cell =
          copyRowsAux top off.1 off.2 cell.1 cell.2.1 (ir.1 + cell.1)
            ((ir.1 + u32AsI32 ir.2.2.1 + cell.1 - (ir.1 + cell.1)).toNat)
            ((ir.2.1 + u32AsI32 ir.2.2.2 + cell.2.1 - (ir.2.1 + cell.2.1)).toNat)
            (ir.2.1 + cell.2.1) bottom := by
        unfold copy_image
        rw [hi]
      rw [hstep]
      exact copyRowsAux_ne_noInt top off.1 off.2 cell.1 cell.2.1 (ir.1 + cell.1) _ _ _ bottom

def wBottom : RgbaImage := ⟨4, 4, fun _ _ => (0, 0, 0, 0)⟩

def wTop : RgbImage := ⟨2, 2, fun x y => (x + 1, y + 2, 3)⟩

/-- Witness for C2: a `2 × 2` image at offset `(1, 0)` in a `3 × 3` cell
overlaps it, and the call does not hit the no-intersection abort. -/
theorem compositor_empty_intersection_fatal_inst :
    intersect (0, 0, 3, 3) (1, 0, wTop.width, wTop.height) ≠ none ∧
    copy_image wBottom wTop (1, 0) (0, 0, 3, 3) ≠ Except.error CopyError.noIntersection :=
  ⟨by decide,
   (compositor_empty_intersection_fatal wBottom wTop (1, 0) (0, 0, 3, 3)).2 (by decide)⟩

/-- C10: when the intersection is non-empty and the cell lies inside the
canvas (with all quantities in the `u32`/`i32` ranges the Rust types
impose), `copy_image` completes: every source read and destination write in
its loop is in bounds and every `as u32` cast is of a non-negative value. -/
theorem compositor_in_bounds_access (bottom : RgbaImage) (top : RgbImage)
    (off : ℤ × ℤ) (cell : ℤ × ℤ × ℕ × ℕ) (ir : ℤ × ℤ × ℕ × ℕ)
    (hir : intersect (0, 0, cell.2.2.1, cell.2.2.2)
      (off.1, off.2, top.width, top.height) = some ir)
    (hcx : 0 ≤ cell.1) (hcy : 0 ≤ cell.2.1)
    (hcw : cell.1 + cell.2.2.1 ≤ (bottom.width : ℤ))
    (hch : cell.2.1 + cell.2.2.2 ≤ (bottom.height : ℤ))
    (hbw : bottom.width < 4294967296) (hbh : bottom.height < 4294967296)
    (htw : top.width < 4294967296) (hth : top.height < 4294967296)
    (hcw31 : cell.2.2.1 < 2147483648) (hch31 : cell.2.2.2 < 2147483648) :
    ∃ b : RgbaImage, copy_image bottom top off cell = Except.ok b := by
  obtain ⟨b, hok, _, _, _⟩ :=
    copy_image_ok bottom top off cell ir hir hcx hcy hcw hch hbw hbh htw hth hcw31 hch31
  exact ⟨b, hok⟩

/-- Witness for C10: the `2 × 2` image at offset `(1, 1)` in the `3 × 3`
cell at the canvas origin. -/
theorem compositor_in_bounds_access_inst :
    intersect (0, 0, 3, 3) (1, 1, wTop.width, wTop.height) = some (1, 1, 2, 2) ∧
    ∃ b : RgbaImage, copy_image wBottom wTop (1, 1) (0, 0, 3, 3) = Except.ok b :=
  ⟨by decide,
   compositor_in_bounds_access wBottom wTop (1, 1) (0, 0, 3, 3) (1, 1, 2, 2)
     (by decide) (by decide) (by decide) (by decide) (by decide) (by decide)
     (by decide) (by decide) (by decide) (by decide) (by decide)⟩

/-- C3: every canvas pixel in the clipped destination block receives the
RGB channels of the source pixel at the destination position minus
`offset + cell top-left`, with alpha forced to 255; in particular, when the
image rectangle lies entirely inside the cell, every source pixel is
reproduced exactly at `cell top-left + offset + source position` with
alpha 255. -/
theorem compositor_copies_overlap_pixels (bottom : RgbaImage) (top : RgbImage)
    (off : ℤ × ℤ) (cell : ℤ × ℤ × ℕ × ℕ) (ir : ℤ × ℤ × ℕ × ℕ)
    (hir : intersect (0, 0, cell.2.2.1, cell.2.2.2)
      (off.1, off.2, top.width, top.height) = some ir)
    (hcx : 0 ≤ cell.1) (hcy : 0 ≤ cell.2.1)
    (hcw : cell.1 + cell.2.2.1 ≤ (bottom.width : ℤ))
    (hch : cell.2.1 + cell.2.2.2 ≤ (bottom.height : ℤ))
    (hbw : bottom.width < 4294967296) (hbh : bottom.height < 4294967296)
    (htw : top.width < 4294967296) (hth : top.height < 4294967296)
    (hcw31 : cell.2.2.1 < 2147483648) (hch31 : cell.2.2.2 < 2147483648) :
    ∃ b : RgbaImage,
      copy_image bottom top off cell = Except.ok b ∧
      (∀ i j : ℕ,
        cell.1 + ir.1 ≤ (i : ℤ) → (i : ℤ) < cell.1 + ir.1 + ir.2.2.1 →
        cell.2.1 + ir.2.1 ≤ (j : ℤ) → (j : ℤ) < cell.2.1 + ir.2.1 + ir.2.2.2 →
        b.pix i j =
          rgbaOf (top.pix ((i : ℤ) - off.1 - cell.1).toNat
            ((j : ℤ) - off.2 - cell.2.1).toNat)) ∧
      (0 ≤ off.1 → 0 ≤ off.2 → off.1 + top.width ≤ (cell.2.2.1 : ℤ) →
       off.2 + top.height ≤ (cell.2.2.2 : ℤ) →
        ∀ sx sy : ℕ, sx < top.width → sy < top.height →
          b.pix (cell.1 + off.1 + sx).toNat (cell.2.1 + off.2 + sy).toNat =
            rgbaOf (top.pix sx sy)) := by
  obtain ⟨hx1, hy1, hw2, hh2, hxlt, hylt⟩ :=
    intersect_cell_some cell.2.2.1 cell.2.2.2 top.width top.height off.1 off.2 ir hir
  obtain ⟨b, hok, hw', hh', hpix⟩ :=
    copy_image_ok bottom top off cell ir hir hcx hcy hcw hch hbw hbh htw hth hcw31 hch31
  refine ⟨b, hok, ?_, ?_⟩
  · intro i j h1 h2 h3 h4
    rw [hpix i j, if_pos ⟨h1, h2, h3, h4⟩]
  · intro ho1 ho2 ho3 ho4 sx sy hsx hsy
    have hi : (((cell.1 + off.1 + (sx : ℤ)).toNat : ℤ)) = cell.1 + off.1 + sx :=
      Int.toNat_of_nonneg (by omega)
    have hj : (((cell.2.1 + off.2 + (sy : ℤ)).toNat : ℤ)) = cell.2.1 + off.2 + sy :=
      Int.toNat_of_nonneg (by omega)
    rw [hpix ((cell.1 + off.1 + (sx : ℤ)).toNat) ((cell.2.1 + off.2 + (sy : ℤ)).toNat),
      if_pos (by omega)]
    have e1 : ((((cell.1 + off.1 + (sx : ℤ)).toNat : ℤ)) - off.1 - cell.1).toNat = sx := by
      omega
    have e2 : ((((cell.2.1 + off.2 + (sy : ℤ)).toNat : ℤ)) - off.2 - cell.2.1).toNat = sy := by
      omega
    rw [e1, e2]

/-- Witness for C3: the `2 × 2` image fully contained (offset `(0, 1)`) in
the `3 × 3` cell at the canvas origin. -/
theorem compositor_copies_overlap_pixels_inst :
    intersect (0, 0, 3, 3) (0, 1, wTop.width, wTop.height) = some (0, 1, 2, 2) ∧
    (∃ b : RgbaImage,
      copy_image wBottom wTop (0, 1) (0, 0, 3, 3) = Except.ok b ∧
      (∀ i j : ℕ,
        (0 : ℤ) + 0 ≤ (i : ℤ) → (i : ℤ) < (0 : ℤ) + 0 + ((2 : ℕ) : ℤ) →
        (0 : ℤ) + 1 ≤ (j : ℤ) → (j : ℤ) < (0 : ℤ) + 1 + ((2 : ℕ) : ℤ) →
        b.pix i j =
          rgbaOf (wTop.pix ((i : ℤ) - 0 - 0).toNat ((j : ℤ) - 1 - 0).toNat)) ∧
      ((0 : ℤ) ≤ 0 → (0 : ℤ) ≤ 1 → (0 : ℤ) + wTop.width ≤ ((3 : ℕ) : ℤ) →
       (1 : ℤ) + wTop.height ≤ ((3 : ℕ) : ℤ) →
        ∀ sx sy : ℕ, sx < wTop.width → sy < wTop.height →
          b.pix ((0 : ℤ) + 0 + sx).toNat ((0 : ℤ) + 1 + sy).toNat =
            rgbaOf (wTop.pix sx sy))) :=
  ⟨by decide,
   compositor_copies_overlap_pixels wBottom wTop (0, 1) (0, 0, 3, 3) (0, 1, 2, 2)
     (by decide) (by decide) (by decide) (by decide) (by decide) (by decide)
     (by decide) (by decide) (by decide) (by decide) (by decide)⟩

/-- C4: canvas pixels outside the clipped destination block — including
every pixel of the cell outside the overlap — are left unchanged by
`copy_image`, and hence retain the canvas's initial fully-transparent value
when the canvas started fully transparent. -/
theorem compositor_leaves_outside_untouched (bottom : RgbaImage) (top : RgbImage)
    (off : ℤ × ℤ) (cell : ℤ × ℤ × ℕ × ℕ) (ir : ℤ × ℤ × ℕ × ℕ)
    (hir : intersect (0, 0, cell.2.2.1, cell.2.2.2)
      (off.1, off.2, top.width, top.height) = some ir)
    (hcx : 0 ≤ cell.1) (hcy : 0 ≤ cell.2.1)
    (hcw : cell.1 + cell.2.2.1 ≤ (bottom.width : ℤ))
    (hch : cell.2.1 + cell.2.2.2 ≤ (bottom.height : ℤ))
    (hbw : bottom.width < 4294967296) (hbh : bottom.height < 4294967296)
    (htw : top.width < 4294967296) (hth : top.height < 4294967296)
    (hcw31 : cell.2.2.1 < 2147483648) (hch31 : cell.2.2.2 < 2147483648) :
    ∃ b : RgbaImage,
      copy_image bottom top off cell = Except.ok b ∧
      (∀ i j : ℕ,
        ¬(cell.1 + ir.1 ≤ (i : ℤ) ∧ (i : ℤ) < cell.1 + ir.1 + ir.2.2.1 ∧
          cell.2.1 + ir.2.1 ≤ (j : ℤ) ∧ (j : ℤ) < cell.2.1 + ir.2.1 + ir.2.2.2) →
        b.pix i j = bottom.pix i j) ∧
      ((∀ i j : ℕ, bottom.pix i j = (0, 0, 0, 0)) →
        ∀ i j : ℕ,
          ¬(cell.1 + ir.1 ≤ (i : ℤ) ∧ (i : ℤ) < cell.1 + ir.1 + ir.2.2.1 ∧
            cell.2.1 + ir.2.1 ≤ (j : ℤ) ∧ (j : ℤ) < cell.2.1 + ir.2.1 + ir.2.2.2) →
          b.pix i j = (0, 0, 0, 0)) := by
  obtain ⟨b, hok, hw', hh', hpix⟩ :=
    copy_image_ok bottom top off cell ir hir hcx hcy hcw hch hbw hbh htw hth hcw31 hch31
  refine ⟨b, hok, ?_, ?_⟩
  · intro i j hout
    rw [hpix i j, if_neg hout]
  · intro htr i j hout
    rw [hpix i j, if_neg hout, htr i j]

/-- Witness for C4: the `2 × 2` image at offset `(2, -1)` only partially
overlaps the `3 × 3` cell (overlap is the single block `ir = (2, 0, 1, 1)`). -/
theorem compositor_leaves_outside_untouched_inst :
    intersect (0, 0, 3, 3) (2, -1, wTop.width, wTop.height) = some (2, 0, 1, 1) ∧
    (∃ b : RgbaImage,
      copy_image wBottom wTop (2, -1) (0, 0, 3, 3) = Except.ok b ∧
      (∀ i j : ℕ,
        ¬((0 : ℤ) + 2 ≤ (i : ℤ) ∧ (i : ℤ) < (0 : ℤ) + 2 + ((1 : ℕ) : ℤ) ∧
          (0 : ℤ) + 0 ≤ (j : ℤ) ∧ (j : ℤ) < (0 : ℤ) + 0 + ((1 : ℕ) : ℤ)) →
        b.pix i j = wBottom.pix i j) ∧
      ((∀ i j : ℕ, wBottom.pix i j = (0, 0, 0, 0)) →
        ∀ i j : ℕ,
          ¬((0 : ℤ) + 2 ≤ (i : ℤ) ∧ (i : ℤ) < (0 : ℤ) + 2 + ((1 : ℕ) : ℤ) ∧
            (0 : ℤ) + 0 ≤ (j : ℤ) ∧ (j : ℤ) < (0 : ℤ) + 0 + ((1 : ℕ) : ℤ)) →
          b.pix i j = (0, 0, 0, 0))) :=
  ⟨by decide,
   compositor_leaves_outside_untouched wBottom wTop (2, -1) (0, 0, 3, 3) (2, 0, 1, 1)
     (by decide) (by decide) (by decide) (by decide) (by decide) (by decide)
     (by decide) (by decide) (by decide) (by decide) (by decide)⟩

/-- C8: in the compositing loop, appending one more result to the batch
composites it — after all earlier results, in production order — into the
cell at column `i mod num_cols`, row `i div num_cols` (where `i` is its
0-based index), whose canvas-absolute top-left is
`(col * cell_width, row * cell_height)`; and distinct indices map to
distinct (column, row) cells, so each result occupies exactly one cell. -/
theorem row_major_cell_assignment (c cw ch : ℕ) (hc : 0 < c) :
    (∀ (canvas : RgbaImage) (rs : List (RgbImage × ℤ × ℤ)) (r : RgbImage × ℤ × ℤ),
      rs.length % c * cw < 2147483648 → rs.length / c * ch < 2147483648 →
      blendLoop c cw ch (rs ++ [r]) 0 canvas =
        Except.bind (blendLoop c cw ch rs 0 canvas)
          (fun b => copy_image b r.1 r.2
            (((rs.length % c * cw : ℕ) : ℤ), ((rs.length / c * ch : ℕ) : ℤ), cw, ch))) ∧
    (∀ i j : ℕ, i % c = j % c → i / c = j / c → i = j) := by
  constructor
  · intro canvas rs r hw hh
    rw [blendLoop_append c cw ch r rs 0 canvas]
    simp only [Nat.zero_add]
    rw [u32AsI32_eq_coe (rs.length % c * cw) hw, u32AsI32_eq_coe (rs.length / c * ch) hh]
  · intro i j h1 h2
    have d1 := Nat.div_add_mod i c
    have d2 := Nat.div_add_mod j c
    rw [h1, h2] at d1
    exact d1.symm.trans d2

def wResult : RgbImage × ℤ × ℤ := (wTop, (0, 1))

def wResult2 : RgbImage × ℤ × ℤ := (wTop, (1, 0))

/-- Witness for C8, at 2 columns, `3 × 3` cells, a batch of one result plus
one appended result (index 1 → column 1, row 0), and the cell-injectivity
conjunct at indices 5 and 5. -/
theorem row_major_cell_assignment_inst :
    0 < 2 ∧
    (blendLoop 2 3 3 ([wResult] ++ [wResult2]) 0 wBottom =
      Except.bind (blendLoop 2 3 3 [wResult] 0 wBottom)
        (fun b => copy_image b wResult2.1 wResult2.2
          ((([wResult].length % 2 * 3 : ℕ) : ℤ),
           (([wResult].length / 2 * 3 : ℕ) : ℤ), 3, 3))) ∧
    (5 : ℕ) = 5 :=
  ⟨by decide,
   (row_major_cell_assignment 2 3 3 (by decide)).1 wBottom [wResult] wResult2
     (by decide) (by decide),
   (row_major_cell_assignment 2 3 3 (by decide)).2 5 5 rfl rfl⟩

/-- C6 amended: the parser accepts zero cell dimensions (no positivity
validation exists before alignment), and a zero cell width or height later
surfaces as the compositor's fatal no-intersection abort. -/
theorem cell_dims_not_validated_amended :
    parse_image_dimensions zeroHeightDims = Except.ok (100, 0) ∧
    (∀ (bottom : RgbaImage) (top : RgbImage) (off : ℤ × ℤ) (cx cy : ℤ) (hgt : ℕ),
      copy_image bottom top off (cx, cy, 0, hgt) = Except.error CopyError.noIntersection) ∧
    (∀ (bottom : RgbaImage) (top : RgbImage) (off : ℤ × ℤ) (cx cy : ℤ) (wdt : ℕ),
      copy_image bottom top off (cx, cy, wdt, 0) = Except.error CopyError.noIntersection) :=
  ⟨rfl,
   fun bottom top off cx cy hgt => copy_image_zero_w bottom top off (cx, cy, 0, hgt) rfl,
   fun bottom top off cx cy wdt => copy_image_zero_h bottom top off (cx, cy, wdt, 0) rfl⟩
